import Mathlib

/-!
Shallow embedding of `caffe2/python/scope.py` (thread-local scope guards:
`NameScope`, `DeviceScope`, `EmptyDeviceScope`, `Tags`), together with
theorems settling the specification claims about it.

One Python thread's slice of `_threadlocal_scope` is modelled as an explicit
`ScopeState` record threaded through the guards.  Each
`@contextlib.contextmanager` guard is modelled as a function taking the
guarded block as `body : ScopeState → ScopeState × Option ScopeError`
(the block may mutate the thread-local state and may raise an error) and
returning the state after the guard exits together with the error that
propagates to the guard's caller, if any.
-/

set_option autoImplicit false

namespace Caffe2Scope

/-- Errors that can propagate out of a guard: an error raised by the guarded
block itself, the `assert` argument errors, the `ValueError` of a tags
conflict, and the two end-of-scope consistency `assert`s. -/
inductive ScopeError where
  | blockError (msg : String)
  | argumentError (msg : String)
  | tagsConflict (key oldValue newValue : String)
  | namescopeCorruption
  | devicescopeCorruption
deriving DecidableEq, Repr

/-- `caffe2_pb2.DeviceOption`: modelled with two representative required-ish
payload fields (defaulting to 0 like proto2 scalar defaults) and the one
field the scope module manipulates, `node_name`, which is optional:
`node_name = none` models `HasField('node_name') == False`.  Proto message
equality is structural equality of the fields. -/
structure DeviceOption where
  device_type : Nat := 0
  cuda_gpu_id : Nat := 0
  node_name : Option String := none
deriving DecidableEq, Repr

instance : Inhabited DeviceOption := ⟨{}⟩

/-- Tag mappings (`dict` of string to string): association list in insertion
order; the Python dict invariant is that keys are distinct. -/
abbrev TagMap := List (String × String)

/-- `key in d` / `d[key]` on a Python dict. -/
def lookupTag (m : TagMap) (k : String) : Option String :=
  match m with
  | [] => none
  | (k1, v1) :: rest => if k1 = k then some v1 else lookupTag rest k

/-- `d[key] = value` on a Python dict: replace in place if present,
else append at the end (insertion order). -/
def setTag (m : TagMap) (k v : String) : TagMap :=
  match m with
  | [] => [(k, v)]
  | (k1, v1) :: rest => if k1 = k then (k1, v) :: rest else (k1, v1) :: setTag rest k v

/-- One thread's view of `_threadlocal_scope`, with the lazy defaults of
`CurrentNameScope` (line 34), `CurrentDeviceScope` (line 41) and
`CurrentTags` (line 27) baked in as field defaults. -/
structure ScopeState where
  namescope : String := ""
  devicescope : Option DeviceOption := none
  tags : Option TagMap := none
deriving DecidableEq, Repr

/-- A fresh thread's state: prefix `""`, no device scope, no tags. -/
def initialState : ScopeState := {}

/-- The guarded block: may read and write the thread-local state and may
raise an error (second component `some e`). -/
abbrev Body := ScopeState → ScopeState × Option ScopeError

/-- Truthiness of an optional Python string (`if node_name:`,
`if prefix:`): `None` and `''` are falsy. -/
def strTruthy : Option String → Bool
  | none => false
  | some s => !(s = "")

/-- Python `s.endswith(suffix)`. -/
def strEndsWith (s suffix : String) : Bool :=
  suffix.data.isSuffixOf s.data

/-! ## NameScope (scope.py lines 86-103) -/

/-- Line 92: `prefix = prefix + _NAMESCOPE_SEPARATOR if prefix else ''`. -/
def nameScopeSegment (pfx : Option String) : String :=
  if strTruthy pfx then pfx.getD "" ++ "/" else ""

/-- Lines 91-96: capture is done by the caller (`NameScopeRun`); this is the
installation step writing the new prefix into the store. -/
def nameScopeEnter (pfx : Option String) (reset : Bool) (st : ScopeState) : ScopeState :=
  let seg := nameScopeSegment pfx
  if reset then { st with namescope := seg }
  else { st with namescope := st.namescope ++ seg }

/-- Lines 100-103, the `finally` clause: the consistency `assert` fires
first (leaving the store untouched and raising), otherwise the captured
`old_scope` is restored. -/
def nameScopeExit (old seg : String) (st : ScopeState) : ScopeState × Option ScopeError :=
  if strEndsWith st.namescope seg then ({ st with namescope := old }, none)
  else (st, some .namescopeCorruption)

/-- The whole `with NameScope(prefix, reset): body` block.  An error raised
in the `finally` clause replaces the block's in-flight error, as in Python. -/
def NameScopeRun (pfx : Option String) (reset : Bool) (body : Body) (st : ScopeState) :
    ScopeState × Option ScopeError :=
  let old := st.namescope
  let seg := nameScopeSegment pfx
  let r := body (nameScopeEnter pfx reset st)
  let ex := nameScopeExit old seg r.1
  (ex.1, ex.2 <|> r.2)

/-! ## DeviceScope (scope.py lines 106-131) -/

/-- Line 117-118: `if node_name: new_scope.node_name = node_name`. -/
def applyNodeName (ns : DeviceOption) (nodeName : Option String) : DeviceOption :=
  if strTruthy nodeName then { ns with node_name := nodeName } else ns

/-- Lines 122-124: inherit the enclosing `node_name` when the new scope does
not set it.  `old_scope and old_scope.HasField('node_name')`: a protobuf
message defines no `__bool__`, so `old_scope` is truthy iff not `None`. -/
def applyInherit (ns : DeviceOption) (old : Option DeviceOption) : DeviceOption :=
  match old with
  | some o =>
      if o.node_name.isSome && ns.node_name.isNone then { ns with node_name := o.node_name }
      else ns
  | none => ns

/-- Lines 108-124: the value installed by `DeviceScope`, or the argument
error of line 114.  `if scope:` is truthy iff the caller passed a
descriptor (any descriptor: protobuf messages define no `__bool__`);
`new_scope.CopyFrom(scope)` starts from a copy of the caller's value. -/
def deviceScopeNewScope (scope : Option DeviceOption) (nodeName : Option String)
    (old : Option DeviceOption) : Except ScopeError DeviceOption :=
  match scope with
  | some sc => .ok (applyInherit (applyNodeName sc nodeName) old)
  | none =>
      if strTruthy nodeName then
        .ok (applyInherit (applyNodeName {} nodeName) old)
      else
        .error (.argumentError "At least one argument should be non-null in DeviceScope")

/-- The whole `with DeviceScope(scope, node_name): body` block.  The
argument error of line 114 fires before any state write; the consistency
`assert` of lines 129-130 fires in `finally` before the restore of
line 131, replacing the block's error and leaving the store unrestored. -/
def DeviceScopeRun (scope : Option DeviceOption) (nodeName : Option String)
    (body : Body) (st : ScopeState) : ScopeState × Option ScopeError :=
  match deviceScopeNewScope scope nodeName st.devicescope with
  | .error e => (st, some e)
  | .ok ns =>
      let old := st.devicescope
      let r := body { st with devicescope := some ns }
      if r.1.devicescope = some ns then ({ r.1 with devicescope := old }, r.2)
      else (r.1, some .devicescopeCorruption)

/-! ## EmptyDeviceScope (scope.py lines 134-150) -/

/-- The whole `with EmptyDeviceScope(): body` block.  The `finally` clause
(lines 148-150) restores the captured value and then executes `return`:
a `return` inside `finally` discards the in-flight exception, and the
generator's `StopIteration` makes `contextlib`'s `__exit__` report the
exception as handled, so no error ever propagates to the caller. -/
def EmptyDeviceScopeRun (body : Body) (st : ScopeState) : ScopeState × Option ScopeError :=
  let old := st.devicescope
  let r := body { st with devicescope := none }
  ({ r.1 with devicescope := old }, none)

/-! ## Tags (scope.py lines 45-83) -/

/-- Lines 58-69: the loop of `_merge_tags` over `old_tags.items()`, with
`merged` the accumulator started from `new_tags.copy()`. -/
def mergeTagsLoop (merged : TagMap) : TagMap → Except ScopeError TagMap
  | [] => .ok merged
  | (key, value) :: rest =>
      match lookupTag merged key with
      | some newValue =>
          if value ≠ newValue then .error (.tagsConflict key value newValue)
          else mergeTagsLoop merged rest
      | none => mergeTagsLoop (setTag merged key value) rest

/-- Lines 56-70: `_merge_tags(old_tags, new_tags)`. -/
def mergeTags (oldTags : Option TagMap) (newTags : TagMap) : Except ScopeError TagMap :=
  match oldTags with
  | none => .ok newTags
  | some ot => mergeTagsLoop newTags ot

/-- The whole `with Tags(new_tags): body` block.  The conflict `ValueError`
of line 78 fires before line 79 installs anything; the `finally` clause
(line 83) restores the captured tags unconditionally. -/
def TagsRun (newTags : TagMap) (body : Body) (st : ScopeState) :
    ScopeState × Option ScopeError :=
  let oldTags := st.tags
  match mergeTags oldTags newTags with
  | .error e => (st, some e)
  | .ok merged =>
      let r := body { st with tags := some merged }
      ({ r.1 with tags := oldTags }, r.2)

/-! ## Object-level model of DeviceScope entry (scope.py lines 108-124)

`DeviceScope` allocates a fresh `DeviceOption` (line 108) and every later
write (`CopyFrom` on line 112, the `node_name` assignments on lines 118 and
124) targets that fresh object, never the caller's argument.  To state this
aliasing fact, the entry is re-modelled threading both objects explicitly:
`argObj` is the object the caller passed (when any) and `newObj` the fresh
`new_scope` object; each statement updates the object it writes to. -/

structure DevEntryObjects where
  argObj : Option DeviceOption
  newObj : DeviceOption
deriving DecidableEq, Repr

/-- Lines 108-124 with both descriptor objects tracked.  `CopyFrom` copies
the argument's value into the fresh object; the subsequent field writes
mutate the fresh object only.  Returns the final objects; the installed
value is `newObj`. -/
def deviceScopeEnterObjects (argObj : Option DeviceOption) (nodeName : Option String)
    (old : Option DeviceOption) : Except ScopeError DevEntryObjects :=
  let o0 : DevEntryObjects := ⟨argObj, {}⟩
  match argObj with
  | some sc =>
      let o1 := { o0 with newObj := sc }
      let o2 := { o1 with newObj := applyNodeName o1.newObj nodeName }
      .ok { o2 with newObj := applyInherit o2.newObj old }
  | none =>
      if strTruthy nodeName then
        let o2 := { o0 with newObj := applyNodeName o0.newObj nodeName }
        .ok { o2 with newObj := applyInherit o2.newObj old }
      else
        .error (.argumentError "At least one argument should be non-null in DeviceScope")

/-- The invariant the spec states for the name prefix slot: empty or ending
in the separator. -/
def prefixInv (s : String) : Prop := s = "" ∨ strEndsWith s "/" = true

/-! ## Helper lemmas -/

theorem strEndsWith_append (a b : String) : strEndsWith (a ++ b) b = true := by
  rw [strEndsWith, String.data_append, List.isSuffixOf_iff_suffix]
  exact List.suffix_append a.data b.data

theorem strEndsWith_self (b : String) : strEndsWith b b = true := by
  have h := strEndsWith_append "" b
  rwa [String.empty_append] at h

theorem strEndsWith_empty (s : String) : strEndsWith s "" = true := by
  rw [strEndsWith, List.isSuffixOf_iff_suffix]
  exact List.nil_suffix

theorem lookupTag_setTag (m : TagMap) (k v k2 : String) :
    lookupTag (setTag m k v) k2 = if k = k2 then some v else lookupTag m k2 := by
  induction m with
  | nil =>
      by_cases h : k = k2 <;> simp [setTag, lookupTag, h]
  | cons p rest ih =>
      obtain ⟨k1, v1⟩ := p
      by_cases h1 : k1 = k
      · subst h1
        by_cases h2 : k1 = k2 <;> simp [setTag, lookupTag, h2]
      · by_cases h2 : k1 = k2
        · subst h2
          have hk : ¬(k = k1) := fun hk => h1 hk.symm
          simp [setTag, lookupTag, h1, hk]
        · simp [setTag, lookupTag, h1, h2, ih]

theorem lookupTag_mem_keys (m : TagMap) (k v : String) :
    lookupTag m k = some v → k ∈ m.map Prod.fst := by
  induction m with
  | nil => intro h; simp [lookupTag] at h
  | cons p rest ih =>
      obtain ⟨k1, v1⟩ := p
      intro h
      by_cases h1 : k1 = k
      · simp [h1]
      · simp [lookupTag, h1] at h
        rw [List.map_cons]
        exact List.mem_cons_of_mem _ (ih h)

/-- The current-tags lookup seen through the optional slot. -/
def lookupCur (o : Option TagMap) (k : String) : Option String :=
  match o with
  | none => none
  | some m => lookupTag m k

theorem mergeTagsLoop_ok (ot : TagMap) : ∀ (merged : TagMap),
    (ot.map Prod.fst).Nodup →
    (∀ k v v2, lookupTag ot k = some v → lookupTag merged k = some v2 → v = v2) →
    ∃ m, mergeTagsLoop merged ot = .ok m ∧
      ∀ k, lookupTag m k = (lookupTag merged k).orElse (fun _ => lookupTag ot k) := by
  induction ot with
  | nil =>
      intro merged _ _
      refine ⟨merged, rfl, fun k => ?_⟩
      cases lookupTag merged k <;> simp [lookupTag, Option.orElse]
  | cons p rest ih =>
      obtain ⟨key, value⟩ := p
      intro merged hnd hag
      rw [List.map_cons, List.nodup_cons] at hnd
      obtain ⟨hkey, hnd2⟩ := hnd
      cases hm : lookupTag merged key with
      | some v2 =>
          have hv : value = v2 := hag key value v2 (by simp [lookupTag]) hm
          have hag2 : ∀ k v v3, lookupTag rest k = some v → lookupTag merged k = some v3 →
              v = v3 := by
            intro k v v3 hr hmk
            have hkne : ¬(key = k) := by
              intro he
              exact hkey (he ▸ lookupTag_mem_keys rest k v hr)
            exact hag k v v3 (by simp [lookupTag, hkne, hr]) hmk
          obtain ⟨m, heq, hlk⟩ := ih merged hnd2 hag2
          refine ⟨m, ?_, ?_⟩
          · simp [mergeTagsLoop, hm, hv, heq]
          · intro k
            rw [hlk k]
            cases hmk : lookupTag merged k with
            | some x => simp [Option.orElse]
            | none =>
                have hkne : ¬(key = k) := by
                  intro he; rw [← he, hm] at hmk; exact Option.noConfusion hmk
                simp [Option.orElse, lookupTag, hkne]
      | none =>
          have hag2 : ∀ k v v3, lookupTag rest k = some v →
              lookupTag (setTag merged key value) k = some v3 → v = v3 := by
            intro k v v3 hr hmk
            have hkne : ¬(key = k) := by
              intro he
              exact hkey (he ▸ lookupTag_mem_keys rest k v hr)
            rw [lookupTag_setTag, if_neg hkne] at hmk
            exact hag k v v3 (by simp [lookupTag, hkne, hr]) hmk
          obtain ⟨m, heq, hlk⟩ := ih (setTag merged key value) hnd2 hag2
          refine ⟨m, ?_, ?_⟩
          · simp [mergeTagsLoop, hm, heq]
          · intro k
            rw [hlk k, lookupTag_setTag]
            by_cases hkne : key = k
            · subst hkne
              simp [Option.orElse, hm, lookupTag]
            · simp only [if_neg hkne]
              cases hmk : lookupTag merged k with
              | some x => simp [Option.orElse]
              | none => simp [Option.orElse, lookupTag, hkne]

theorem mergeTagsLoop_conflict (ot : TagMap) : ∀ (merged : TagMap),
    (ot.map Prod.fst).Nodup →
    (∃ k v v2, lookupTag ot k = some v ∧ lookupTag merged k = some v2 ∧ v ≠ v2) →
    ∃ k v v2, mergeTagsLoop merged ot = .error (.tagsConflict k v v2) ∧
      lookupTag ot k = some v ∧ lookupTag merged k = some v2 ∧ v ≠ v2 := by
  induction ot with
  | nil =>
      intro merged _ hc
      obtain ⟨k, v, v2, h, _, _⟩ := hc
      simp [lookupTag] at h
  | cons p rest ih =>
      obtain ⟨key, value⟩ := p
      intro merged hnd hc
      rw [List.map_cons, List.nodup_cons] at hnd
      obtain ⟨hkey, hnd2⟩ := hnd
      cases hm : lookupTag merged key with
      | some v2 =>
          by_cases hv : value = v2
          · -- no conflict at the head key: the conflict is further down
            obtain ⟨k, v, v3, hok, hmk, hne⟩ := hc
            have hkne : ¬(key = k) := by
              intro he
              subst he
              rw [show lookupTag ((key, value) :: rest) key = some value by
                simp [lookupTag]] at hok
              rw [hm] at hmk
              exact hne ((Option.some_inj.mp hok).symm ▸ (Option.some_inj.mp hmk) ▸ hv)
            rw [show lookupTag ((key, value) :: rest) k = lookupTag rest k by
              simp [lookupTag, hkne]] at hok
            obtain ⟨k4, v4, v5, heq, hr4, hm4, hne4⟩ :=
              ih merged hnd2 ⟨k, v, v3, hok, hmk, hne⟩
            have hkne4 : ¬(key = k4) := by
              intro he
              exact hkey (he ▸ lookupTag_mem_keys rest k4 v4 hr4)
            refine ⟨k4, v4, v5, ?_, ?_, hm4, hne4⟩
            · simp [mergeTagsLoop, hm, hv, heq]
            · simp [lookupTag, hkne4, hr4]
          · -- conflict detected at the head key
            refine ⟨key, value, v2, ?_, by simp [lookupTag], hm, hv⟩
            simp [mergeTagsLoop, hm, hv]
      | none =>
          obtain ⟨k, v, v3, hok, hmk, hne⟩ := hc
          have hkne : ¬(key = k) := by
            intro he; rw [← he, hm] at hmk; exact Option.noConfusion hmk
          rw [show lookupTag ((key, value) :: rest) k = lookupTag rest k by
            simp [lookupTag, hkne]] at hok
          have hmk2 : lookupTag (setTag merged key value) k = some v3 := by
            rw [lookupTag_setTag, if_neg hkne]; exact hmk
          obtain ⟨k4, v4, v5, heq, hr4, hm4, hne4⟩ :=
            ih (setTag merged key value) hnd2 ⟨k, v, v3, hok, hmk2, hne⟩
          have hkne4 : ¬(key = k4) := by
            intro he
            exact hkey (he ▸ lookupTag_mem_keys rest k4 v4 hr4)
          rw [lookupTag_setTag, if_neg hkne4] at hm4
          refine ⟨k4, v4, v5, ?_, ?_, hm4, hne4⟩
          · simp [mergeTagsLoop, hm, heq]
          · simp [lookupTag, hkne4, hr4]

theorem nameScopeRun_eq (pfx : Option String) (reset : Bool) (body : Body) (st : ScopeState) :
    NameScopeRun pfx reset body st =
      if strEndsWith (body (nameScopeEnter pfx reset st)).1.namescope (nameScopeSegment pfx)
      then ({ (body (nameScopeEnter pfx reset st)).1 with namescope := st.namescope },
            (body (nameScopeEnter pfx reset st)).2)
      else ((body (nameScopeEnter pfx reset st)).1, some .namescopeCorruption) := by
  by_cases h :
      strEndsWith (body (nameScopeEnter pfx reset st)).1.namescope (nameScopeSegment pfx) = true
  · simp [NameScopeRun, nameScopeExit, h]
  · simp [NameScopeRun, nameScopeExit, h]

theorem deviceScopeRun_eq_ok (scope : Option DeviceOption) (nn : Option String) (body : Body)
    (st : ScopeState) (ns : DeviceOption)
    (h : deviceScopeNewScope scope nn st.devicescope = .ok ns) :
    DeviceScopeRun scope nn body st =
      if (body { st with devicescope := some ns }).1.devicescope = some ns
      then ({ (body { st with devicescope := some ns }).1 with devicescope := st.devicescope },
            (body { st with devicescope := some ns }).2)
      else ((body { st with devicescope := some ns }).1, some .devicescopeCorruption) := by
  simp [DeviceScopeRun, h]

theorem deviceScopeRun_eq_error (scope : Option DeviceOption) (nn : Option String) (body : Body)
    (st : ScopeState) (e : ScopeError)
    (h : deviceScopeNewScope scope nn st.devicescope = .error e) :
    DeviceScopeRun scope nn body st = (st, some e) := by
  simp [DeviceScopeRun, h]

theorem tagsRun_eq_ok (nt : TagMap) (body : Body) (st : ScopeState) (m : TagMap)
    (h : mergeTags st.tags nt = .ok m) :
    TagsRun nt body st =
      ({ (body { st with tags := some m }).1 with tags := st.tags },
       (body { st with tags := some m }).2) := by
  simp [TagsRun, h]

theorem tagsRun_eq_error (nt : TagMap) (body : Body) (st : ScopeState) (e : ScopeError)
    (h : mergeTags st.tags nt = .error e) :
    TagsRun nt body st = (st, some e) := by
  simp [TagsRun, h]

/-! ## Claims -/

/-- Claim C1 (code bug): the claim says every guard restores the captured
context value when the block raises and then lets the error propagate.
`EmptyDeviceScope` restores, but its `finally` clause ends in `return`,
which swallows the in-flight exception: for every block and every state the
guard reports no error to its caller, including at the concrete failing
input where the block raises an error without touching any slot. -/
theorem emptyDeviceScope_restores_but_suppresses_block_error :
    (∀ (body : Body) (st : ScopeState), (EmptyDeviceScopeRun body st).2 = none) ∧
    EmptyDeviceScopeRun (fun s => (s, some (.blockError "boom")))
        { namescope := "", devicescope := some { device_type := 1, cuda_gpu_id := 9 },
          tags := none }
      = ({ namescope := "", devicescope := some { device_type := 1, cuda_gpu_id := 9 },
           tags := none }, none) := by
  exact ⟨fun body st => rfl, rfl⟩

/-- Claim C2, counterexample: `DeviceScope(None, "")` is a call where a node
name is supplied (`some ""`) and no descriptor is given; the claim's "fails
iff neither is supplied" demands success, but the code raises the argument
error (the empty string is falsy in `assert node_name`). -/
theorem deviceScope_argument_error_despite_supplied_node_name :
    (some "" : Option String).isSome = true ∧
    DeviceScopeRun none (some "") (fun s => (s, none)) initialState
      = (initialState,
         some (.argumentError "At least one argument should be non-null in DeviceScope")) := by
  exact ⟨rfl, rfl⟩

/-- Claim C2, amended: the Device Scope guard fails with the argument error
iff no descriptor is supplied and the node name is absent or empty
(Python-falsy); whenever a descriptor is supplied (any descriptor value,
with or without a node name), the entry computation succeeds, and the
argument error is the only error the entry computation can produce. -/
theorem deviceScope_argument_error_iff_no_scope_and_falsy_node_name :
    ∀ (scope : Option DeviceOption) (nn : Option String) (old : Option DeviceOption),
      ((∃ msg, deviceScopeNewScope scope nn old = .error (.argumentError msg)) ↔
        (scope = none ∧ strTruthy nn = false)) ∧
      (∀ sc, scope = some sc → ∃ ns, deviceScopeNewScope scope nn old = .ok ns) ∧
      (∀ e, deviceScopeNewScope scope nn old = .error e →
        e = .argumentError "At least one argument should be non-null in DeviceScope") := by
  intro scope nn old
  cases scope with
  | some sc =>
      refine ⟨⟨?_, ?_⟩, ?_, ?_⟩
      · rintro ⟨msg, h⟩
        simp [deviceScopeNewScope] at h
      · rintro ⟨h, _⟩
        exact Option.noConfusion h
      · intro sc2 h
        exact ⟨_, rfl⟩
      · intro e h
        simp [deviceScopeNewScope] at h
  | none =>
      cases ht : strTruthy nn with
      | true =>
          refine ⟨⟨?_, ?_⟩, ?_, ?_⟩
          · rintro ⟨msg, h⟩
            simp [deviceScopeNewScope, ht] at h
          · rintro ⟨_, h⟩
            exact Bool.noConfusion h
          · intro sc2 h
            exact Option.noConfusion h
          · intro e h
            simp [deviceScopeNewScope, ht] at h
      | false =>
          refine ⟨⟨?_, ?_⟩, ?_, ?_⟩
          · intro _
            exact ⟨rfl, rfl⟩
          · intro _
            exact ⟨"At least one argument should be non-null in DeviceScope", by
              simp [deviceScopeNewScope, ht]⟩
          · intro sc2 h
            exact Option.noConfusion h
          · intro e h
            simp [deviceScopeNewScope, ht] at h
            exact h.symm

/-- Witness for the amended C2: the argument error occurs at
`DeviceScope(None, None)`, and supplying the default descriptor (even with
a falsy node name) succeeds. -/
theorem deviceScope_argument_error_iff_witness :
    (∃ msg, deviceScopeNewScope none none none = .error (.argumentError msg)) ∧
    (∃ ns, deviceScopeNewScope (some {}) (some "") none = .ok ns) :=
  ⟨(deviceScope_argument_error_iff_no_scope_and_falsy_node_name none none none).1.mpr
      ⟨rfl, rfl⟩,
   (deviceScope_argument_error_iff_no_scope_and_falsy_node_name (some {}) (some "")
      none).2.1 {} rfl⟩

/-- Claim C3: inside an enclosing device scope whose node identifier is
`some n`, a nested Device Scope entry that sets no node identifier (falsy
`nodeName`, descriptor without `node_name`) installs the descriptor with the
inherited identifier `n`; an identifier given via a truthy `nodeName`, via
the supplied descriptor, or via `nodeName` with a default descriptor, is
installed unchanged instead. -/
theorem deviceScope_node_name_inheritance :
    ∀ (o : DeviceOption) (n : String), o.node_name = some n →
      (∀ (sc : DeviceOption) (nn : Option String),
        strTruthy nn = false → sc.node_name = none →
        deviceScopeNewScope (some sc) nn (some o) = .ok { sc with node_name := some n }) ∧
      (∀ (sc : DeviceOption) (m : String), m ≠ "" →
        ∃ ns, deviceScopeNewScope (some sc) (some m) (some o) = .ok ns ∧
          ns.node_name = some m) ∧
      (∀ (sc : DeviceOption) (nn : Option String) (m : String),
        strTruthy nn = false → sc.node_name = some m →
        deviceScopeNewScope (some sc) nn (some o) = .ok sc) ∧
      (∀ (m : String), m ≠ "" →
        ∃ ns, deviceScopeNewScope none (some m) (some o) = .ok ns ∧
          ns.node_name = some m) := by
  intro o n hn
  refine ⟨?_, ?_, ?_, ?_⟩
  · intro sc nn hf hsc
    simp [deviceScopeNewScope, applyNodeName, applyInherit, hf, hsc, hn]
  · intro sc m hm
    have ht : strTruthy (some m) = true := by simp [strTruthy, hm]
    refine ⟨{ sc with node_name := some m }, ?_, rfl⟩
    simp [deviceScopeNewScope, applyNodeName, applyInherit, ht]
  · intro sc nn m hf hsc
    simp [deviceScopeNewScope, applyNodeName, applyInherit, hf, hsc]
  · intro m hm
    have ht : strTruthy (some m) = true := by simp [strTruthy, hm]
    refine ⟨{ node_name := some m }, ?_, rfl⟩
    simp [deviceScopeNewScope, applyNodeName, applyInherit, ht]

/-- Witness for C3: with enclosing node identifier `"N"`, a nested entry
with a bare descriptor inherits `"N"`, while `nodeName = "M"`, a descriptor
carrying `"M"`, or a default descriptor with `nodeName = "M"` override it. -/
theorem deviceScope_node_name_inheritance_witness :
    deviceScopeNewScope (some { device_type := 1 }) none
        (some { node_name := some "N" }) = .ok { device_type := 1, node_name := some "N" } ∧
    (∃ ns, deviceScopeNewScope (some { device_type := 1 }) (some "M")
        (some { node_name := some "N" }) = .ok ns ∧ ns.node_name = some "M") ∧
    deviceScopeNewScope (some { device_type := 1, node_name := some "M" }) none
        (some { node_name := some "N" }) = .ok { device_type := 1, node_name := some "M" } ∧
    (∃ ns, deviceScopeNewScope none (some "M")
        (some { node_name := some "N" }) = .ok ns ∧ ns.node_name = some "M") := by
  obtain ⟨h1, h2, h3, h4⟩ :=
    deviceScope_node_name_inheritance { node_name := some "N" } "N" rfl
  exact ⟨h1 { device_type := 1 } none rfl rfl,
         h2 { device_type := 1 } "M" (by decide),
         h3 { device_type := 1, node_name := some "M" } none "M" rfl rfl,
         h4 "M" (by decide)⟩

/-- Claim C4: when the enclosing tags (possibly none) and the new tags agree
on every shared key, entering the Tags guard installs exactly the keyed
union (new mapping first, then the enclosing entries not already present);
when some shared key has differing values, the guard raises a conflict
error carrying such a key with its enclosing and new values, identified by
their lookups. -/
theorem tags_enter_merges_union_or_raises_conflict :
    ∀ (o : Option TagMap) (nt : TagMap),
      (∀ ot, o = some ot → (ot.map Prod.fst).Nodup) →
      ((∀ k v v2, lookupCur o k = some v → lookupTag nt k = some v2 → v = v2) →
        ∃ m, mergeTags o nt = .ok m ∧
          (∀ k, lookupTag m k = (lookupTag nt k).orElse (fun _ => lookupCur o k)) ∧
          (∀ (body : Body) (st : ScopeState), st.tags = o →
            TagsRun nt body st =
              ({ (body { st with tags := some m }).1 with tags := o },
               (body { st with tags := some m }).2))) ∧
      ((∃ k v v2, lookupCur o k = some v ∧ lookupTag nt k = some v2 ∧ v ≠ v2) →
        ∃ k v v2, mergeTags o nt = .error (.tagsConflict k v v2) ∧
          lookupCur o k = some v ∧ lookupTag nt k = some v2 ∧ v ≠ v2 ∧
          (∀ (body : Body) (st : ScopeState), st.tags = o →
            TagsRun nt body st = (st, some (.tagsConflict k v v2)))) := by
  intro o nt hnd
  cases o with
  | none =>
      constructor
      · intro _
        refine ⟨nt, rfl, fun k => ?_, fun body st hst => ?_⟩
        · cases lookupTag nt k <;> simp [lookupCur, Option.orElse]
        · rw [tagsRun_eq_ok nt body st nt (by rw [hst]; rfl), hst]
      · rintro ⟨k, v, v2, h, _, _⟩
        simp [lookupCur] at h
  | some ot =>
      constructor
      · intro hag
        obtain ⟨m, heq, hlk⟩ := mergeTagsLoop_ok ot nt (hnd ot rfl)
          (fun k v v2 hok hnk => hag k v v2 hok hnk)
        refine ⟨m, heq, fun k => hlk k, fun body st hst => ?_⟩
        rw [tagsRun_eq_ok nt body st m (by rw [hst]; exact heq), hst]
      · rintro ⟨k, v, v2, hok, hnk, hne⟩
        obtain ⟨k4, v4, v5, heq, hok4, hnk4, hne4⟩ := mergeTagsLoop_conflict ot nt
          (hnd ot rfl) ⟨k, v, v2, hok, hnk, hne⟩
        refine ⟨k4, v4, v5, heq, hok4, hnk4, hne4, fun body st hst => ?_⟩
        exact tagsRun_eq_error nt body st _ (by rw [hst]; exact heq)

/-- Witness for C4: enclosing tags `{key1: value1}` with new tags
`{key2: value2}` merge into their union; with new tags `{key1: value2}`
the guard raises the conflict error. -/
theorem tags_enter_merges_union_or_raises_conflict_witness :
    (∃ m, mergeTags (some [("key1", "value1")]) [("key2", "value2")] = .ok m ∧
      (∀ k, lookupTag m k = (lookupTag [("key2", "value2")] k).orElse
        (fun _ => lookupCur (some [("key1", "value1")]) k)) ∧
      (∀ (body : Body) (st : ScopeState), st.tags = some [("key1", "value1")] →
        TagsRun [("key2", "value2")] body st =
          ({ (body { st with tags := some m }).1 with tags := some [("key1", "value1")] },
           (body { st with tags := some m }).2))) ∧
    (∃ k v v2, mergeTags (some [("key1", "value1")]) [("key1", "value2")]
        = .error (.tagsConflict k v v2) ∧
      lookupCur (some [("key1", "value1")]) k = some v ∧
      lookupTag [("key1", "value2")] k = some v2 ∧ v ≠ v2 ∧
      (∀ (body : Body) (st : ScopeState), st.tags = some [("key1", "value1")] →
        TagsRun [("key1", "value2")] body st = (st, some (.tagsConflict k v v2)))) :=
  ⟨(tags_enter_merges_union_or_raises_conflict (some [("key1", "value1")])
      [("key2", "value2")] (by intro ot h; cases h; simp)).1
      (by intro k v v2 h1 h2
          simp [lookupCur, lookupTag] at h1 h2
          obtain ⟨hk1, hv1⟩ := h1
          obtain ⟨hk2, hv2⟩ := h2
          subst hk1
          exact absurd hk2 (by decide)),
   (tags_enter_merges_union_or_raises_conflict (some [("key1", "value1")])
      [("key1", "value2")] (by intro ot h; cases h; simp)).2
      ⟨"key1", "value1", "value2", rfl, rfl, by decide⟩⟩

/-- Claim C5: when the enclosing and new tags conflict, the Tags guard
raises the conflict error before installing anything: for every block, the
run returns the pre-entry state unchanged (in particular the tags slot)
together with a conflict error. -/
theorem tags_conflict_leaves_tags_unchanged :
    ∀ (st : ScopeState) (ot nt : TagMap) (k v v2 : String),
      st.tags = some ot → (ot.map Prod.fst).Nodup →
      lookupTag ot k = some v → lookupTag nt k = some v2 → v ≠ v2 →
      ∀ body : Body, ∃ k4 v4 v5,
        TagsRun nt body st = (st, some (.tagsConflict k4 v4 v5)) ∧
        lookupTag ot k4 = some v4 ∧ lookupTag nt k4 = some v5 ∧ v4 ≠ v5 := by
  intro st ot nt k v v2 hst hnd hok hnk hne body
  obtain ⟨k4, v4, v5, heq, hnk4, hok4, hne4⟩ := mergeTagsLoop_conflict ot nt hnd
    ⟨k, v, v2, hok, hnk, hne⟩
  refine ⟨k4, v4, v5, ?_, hnk4, hok4, hne4⟩
  exact tagsRun_eq_error nt body st _ (by rw [hst]; exact heq)

/-- Witness for C5: the failed nested entry `Tags({key1: value2})` inside
`Tags({key1: value1})` leaves the state, tags included, untouched. -/
theorem tags_conflict_leaves_tags_unchanged_witness :
    ∃ k4 v4 v5,
      TagsRun [("key1", "value2")] (fun s => (s, none))
          { namescope := "", devicescope := none, tags := some [("key1", "value1")] }
        = ({ namescope := "", devicescope := none, tags := some [("key1", "value1")] },
           some (.tagsConflict k4 v4 v5)) ∧
      lookupTag [("key1", "value1")] k4 = some v4 ∧
      lookupTag [("key1", "value2")] k4 = some v5 ∧ v4 ≠ v5 :=
  tags_conflict_leaves_tags_unchanged
    { namescope := "", devicescope := none, tags := some [("key1", "value1")] }
    [("key1", "value1")] [("key1", "value2")] "key1" "value1" "value2"
    rfl (by simp) rfl rfl (by decide) (fun s => (s, none))

theorem strEndsWith_append_left (a b c : String) (h : strEndsWith b c = true) :
    strEndsWith (a ++ b) c = true := by
  rw [strEndsWith, List.isSuffixOf_iff_suffix] at h ⊢
  rw [String.data_append]
  exact h.trans (List.suffix_append a.data b.data)

theorem nameScopeEnter_endsWith (pfx : Option String) (reset : Bool) (st : ScopeState) :
    strEndsWith (nameScopeEnter pfx reset st).namescope (nameScopeSegment pfx) = true := by
  cases reset with
  | false => exact strEndsWith_append st.namescope (nameScopeSegment pfx)
  | true => exact strEndsWith_self (nameScopeSegment pfx)

theorem nameScopeRun_restores (pfx : Option String) (reset : Bool) (body : Body)
    (st : ScopeState)
    (hb : (body (nameScopeEnter pfx reset st)).1.namescope
      = (nameScopeEnter pfx reset st).namescope) :
    NameScopeRun pfx reset body st =
      ({ (body (nameScopeEnter pfx reset st)).1 with namescope := st.namescope },
       (body (nameScopeEnter pfx reset st)).2) := by
  rw [nameScopeRun_eq, hb, if_pos (nameScopeEnter_endsWith pfx reset st)]

theorem deviceScopeRun_restores (scope : Option DeviceOption) (nn : Option String)
    (body : Body) (st : ScopeState) (ns : DeviceOption)
    (h : deviceScopeNewScope scope nn st.devicescope = .ok ns)
    (hb : (body { st with devicescope := some ns }).1.devicescope = some ns) :
    DeviceScopeRun scope nn body st =
      ({ (body { st with devicescope := some ns }).1 with devicescope := st.devicescope },
       (body { st with devicescope := some ns }).2) := by
  rw [deviceScopeRun_eq_ok scope nn body st ns h, if_pos hb]

/-- Claim C6: Name Scope composition.  With current prefix `P`, entering
with a non-empty segment `s` and `reset = false` installs `P ++ s ++ "/"`;
with `reset = true` it installs exactly `s ++ "/"`; nesting `"a"` then
`"b"` from the empty prefix yields `"a/b/"` and unwinding restores `""`;
and exiting a guard whose block preserved the prefix restores the value
current at entry. -/
theorem nameScope_compose_reset_and_restore :
    (∀ (st : ScopeState) (s : String), s ≠ "" →
      (nameScopeEnter (some s) false st).namescope = st.namescope ++ (s ++ "/")) ∧
    (∀ (st : ScopeState) (s : String), s ≠ "" →
      (nameScopeEnter (some s) true st).namescope = s ++ "/") ∧
    (nameScopeEnter (some "b") false (nameScopeEnter (some "a") false initialState)).namescope
      = "a/b/" ∧
    NameScopeRun (some "a") false
        (fun s1 => NameScopeRun (some "b") false (fun s2 => (s2, none)) s1) initialState
      = (initialState, none) ∧
    (∀ (pfx : Option String) (reset : Bool) (body : Body) (st : ScopeState),
      (body (nameScopeEnter pfx reset st)).1.namescope
        = (nameScopeEnter pfx reset st).namescope →
      (NameScopeRun pfx reset body st).1.namescope = st.namescope) := by
  refine ⟨?_, ?_, ?_, ?_, ?_⟩
  · intro st s h
    simp [nameScopeEnter, nameScopeSegment, strTruthy, h]
  · intro st s h
    simp [nameScopeEnter, nameScopeSegment, strTruthy, h]
  · decide
  · decide
  · intro pfx reset body st hb
    rw [nameScopeRun_restores pfx reset body st hb]

/-- Witness for C6: the general entry and restore parts at concrete inputs. -/
theorem nameScope_compose_reset_and_restore_witness :
    (nameScopeEnter (some "x") false initialState).namescope
      = initialState.namescope ++ ("x" ++ "/") ∧
    (nameScopeEnter (some "y") true
        { namescope := "q/", devicescope := none, tags := none }).namescope = "y" ++ "/" ∧
    (NameScopeRun (some "a") false (fun s => (s, none)) initialState).1.namescope
      = initialState.namescope :=
  ⟨nameScope_compose_reset_and_restore.1 initialState "x" (by decide),
   nameScope_compose_reset_and_restore.2.1
     { namescope := "q/", devicescope := none, tags := none } "y" (by decide),
   nameScope_compose_reset_and_restore.2.2.2.2 (some "a") false (fun s => (s, none))
     initialState rfl⟩

/-- Claim C7: provided the guarded block leaves the guard's own slot as it
found it, the slot after exit equals the value captured at entry, and the
block's outcome (normal `none` or an error) passes through unchanged, for
Name Scope, Device Scope and Tags alike. -/
theorem guards_restore_on_exit_normal_or_error :
    (∀ (pfx : Option String) (reset : Bool) (body : Body) (st : ScopeState),
      (body (nameScopeEnter pfx reset st)).1.namescope
        = (nameScopeEnter pfx reset st).namescope →
      (NameScopeRun pfx reset body st).1.namescope = st.namescope ∧
      (NameScopeRun pfx reset body st).2 = (body (nameScopeEnter pfx reset st)).2) ∧
    (∀ (scope : Option DeviceOption) (nn : Option String) (body : Body) (st : ScopeState)
        (ns : DeviceOption),
      deviceScopeNewScope scope nn st.devicescope = .ok ns →
      (body { st with devicescope := some ns }).1.devicescope = some ns →
      (DeviceScopeRun scope nn body st).1.devicescope = st.devicescope ∧
      (DeviceScopeRun scope nn body st).2 = (body { st with devicescope := some ns }).2) ∧
    (∀ (nt : TagMap) (body : Body) (st : ScopeState) (m : TagMap),
      mergeTags st.tags nt = .ok m →
      (TagsRun nt body st).1.tags = st.tags ∧
      (TagsRun nt body st).2 = (body { st with tags := some m }).2) := by
  refine ⟨?_, ?_, ?_⟩
  · intro pfx reset body st hb
    rw [nameScopeRun_restores pfx reset body st hb]
    exact ⟨rfl, rfl⟩
  · intro scope nn body st ns h hb
    rw [deviceScopeRun_restores scope nn body st ns h hb]
    exact ⟨rfl, rfl⟩
  · intro nt body st m h
    rw [tagsRun_eq_ok nt body st m h]
    exact ⟨rfl, rfl⟩

/-- Witness for C7: each guard around a block that raises an error but does
not touch the slot; the slot returns to its pre-entry value and the block's
error is the one reported. -/
theorem guards_restore_on_exit_witness :
    ((NameScopeRun (some "a") false (fun s => (s, some (.blockError "e")))
        initialState).1.namescope = initialState.namescope ∧
     (NameScopeRun (some "a") false (fun s => (s, some (.blockError "e"))) initialState).2
       = ((fun (s : ScopeState) => (s, some (ScopeError.blockError "e")))
           (nameScopeEnter (some "a") false initialState)).2) ∧
    ((DeviceScopeRun (some { device_type := 1 }) none
        (fun s => (s, some (.blockError "e"))) initialState).1.devicescope
       = initialState.devicescope ∧
     (DeviceScopeRun (some { device_type := 1 }) none
        (fun s => (s, some (.blockError "e"))) initialState).2
       = ((fun (s : ScopeState) => (s, some (ScopeError.blockError "e")))
           { initialState with devicescope := some { device_type := 1 } }).2) ∧
    ((TagsRun [("k", "v")] (fun s => (s, some (.blockError "e"))) initialState).1.tags
       = initialState.tags ∧
     (TagsRun [("k", "v")] (fun s => (s, some (.blockError "e"))) initialState).2
       = ((fun (s : ScopeState) => (s, some (ScopeError.blockError "e")))
           { initialState with tags := some [("k", "v")] }).2) :=
  ⟨guards_restore_on_exit_normal_or_error.1 (some "a") false
     (fun s => (s, some (.blockError "e"))) initialState rfl,
   guards_restore_on_exit_normal_or_error.2.1 (some { device_type := 1 }) none
     (fun s => (s, some (.blockError "e"))) initialState { device_type := 1 } rfl rfl,
   guards_restore_on_exit_normal_or_error.2.2 [("k", "v")]
     (fun s => (s, some (.blockError "e"))) initialState [("k", "v")] rfl⟩

/-- Claim C8: the current name prefix of a fresh thread satisfies the
invariant (empty or ending in `/`), the Name Scope entry and exit steps
preserve it, and the other guards never touch the prefix slot themselves
(so they preserve it whenever their block does). -/
theorem namePrefix_invariant_preserved :
    prefixInv initialState.namescope ∧
    (∀ (pfx : Option String) (reset : Bool) (st : ScopeState),
      prefixInv st.namescope → prefixInv (nameScopeEnter pfx reset st).namescope) ∧
    (∀ (old seg : String) (st : ScopeState),
      prefixInv old → prefixInv st.namescope →
      prefixInv (nameScopeExit old seg st).1.namescope) ∧
    (∀ (scope : Option DeviceOption) (nn : Option String) (body : Body) (st : ScopeState),
      (∀ s, (body s).1.namescope = s.namescope) → prefixInv st.namescope →
      prefixInv (DeviceScopeRun scope nn body st).1.namescope) ∧
    (∀ (body : Body) (st : ScopeState),
      (∀ s, (body s).1.namescope = s.namescope) → prefixInv st.namescope →
      prefixInv (EmptyDeviceScopeRun body st).1.namescope) ∧
    (∀ (nt : TagMap) (body : Body) (st : ScopeState),
      (∀ s, (body s).1.namescope = s.namescope) → prefixInv st.namescope →
      prefixInv (TagsRun nt body st).1.namescope) := by
  have hseg : ∀ pfx : Option String, prefixInv (nameScopeSegment pfx) := by
    intro pfx
    by_cases h : strTruthy pfx = true
    · right
      simp only [nameScopeSegment, h, if_true]
      exact strEndsWith_append _ "/"
    · left
      simp [nameScopeSegment, h]
  refine ⟨Or.inl rfl, ?_, ?_, ?_, ?_, ?_⟩
  · intro pfx reset st h
    cases reset with
    | true => exact hseg pfx
    | false =>
        cases hseg pfx with
        | inl he =>
            show prefixInv (st.namescope ++ nameScopeSegment pfx)
            rw [he, String.append_empty]
            exact h
        | inr he =>
            right
            exact strEndsWith_append_left st.namescope (nameScopeSegment pfx) "/" he
  · intro old seg st hold hst
    by_cases h : strEndsWith st.namescope seg = true
    · simp only [nameScopeExit, h, if_true]
      exact hold
    · simp only [nameScopeExit, h, if_false]
      exact hst
  · intro scope nn body st hbody h
    have hns : (DeviceScopeRun scope nn body st).1.namescope = st.namescope := by
      cases hm : deviceScopeNewScope scope nn st.devicescope with
      | error e =>
          rw [deviceScopeRun_eq_error scope nn body st e hm]
      | ok ns =>
          rw [deviceScopeRun_eq_ok scope nn body st ns hm]
          by_cases hd : (body { st with devicescope := some ns }).1.devicescope = some ns
          · rw [if_pos hd]
            show (body { st with devicescope := some ns }).1.namescope = st.namescope
            rw [hbody]
          · rw [if_neg hd]
            show (body { st with devicescope := some ns }).1.namescope = st.namescope
            rw [hbody]
    rw [hns]
    exact h
  · intro body st hbody h
    have hns : (EmptyDeviceScopeRun body st).1.namescope = st.namescope := by
      show (body { st with devicescope := none }).1.namescope = st.namescope
      rw [hbody]
    rw [hns]
    exact h
  · intro nt body st hbody h
    have hns : (TagsRun nt body st).1.namescope = st.namescope := by
      cases hm : mergeTags st.tags nt with
      | error e => rw [tagsRun_eq_error nt body st e hm]
      | ok m =>
          rw [tagsRun_eq_ok nt body st m hm]
          show (body { st with tags := some m }).1.namescope = st.namescope
          rw [hbody]
    rw [hns]
    exact h

/-- Witness for C8: the invariant at concrete entries, exits and runs. -/
theorem namePrefix_invariant_witness :
    prefixInv (nameScopeEnter (some "a") false initialState).namescope ∧
    prefixInv (nameScopeExit "" "a/" (nameScopeEnter (some "a") false initialState)).1.namescope ∧
    prefixInv (DeviceScopeRun (some { device_type := 1 }) none (fun s => (s, none))
      initialState).1.namescope ∧
    prefixInv (EmptyDeviceScopeRun (fun s => (s, none)) initialState).1.namescope ∧
    prefixInv (TagsRun [("k", "v")] (fun s => (s, none)) initialState).1.namescope :=
  ⟨namePrefix_invariant_preserved.2.1 (some "a") false initialState
     namePrefix_invariant_preserved.1,
   namePrefix_invariant_preserved.2.2.1 "" "a/" (nameScopeEnter (some "a") false initialState)
     (Or.inl rfl)
     (namePrefix_invariant_preserved.2.1 (some "a") false initialState
       namePrefix_invariant_preserved.1),
   namePrefix_invariant_preserved.2.2.2.1 (some { device_type := 1 }) none
     (fun s => (s, none)) initialState (fun _ => rfl) namePrefix_invariant_preserved.1,
   namePrefix_invariant_preserved.2.2.2.2.1 (fun s => (s, none)) initialState
     (fun _ => rfl) namePrefix_invariant_preserved.1,
   namePrefix_invariant_preserved.2.2.2.2.2 [("k", "v")] (fun s => (s, none)) initialState
     (fun _ => rfl) namePrefix_invariant_preserved.1⟩

/-- Claim C9 (implicit): when the end-of-scope consistency assertion of
Name Scope or Device Scope fails, the guard raises the corruption error and
skips the restore, so the store keeps the corrupted value rather than the
pre-entry value. -/
theorem corruption_assert_raises_without_restore :
    (∀ (pfx : Option String) (reset : Bool) (body : Body) (st : ScopeState),
      strEndsWith (body (nameScopeEnter pfx reset st)).1.namescope (nameScopeSegment pfx)
        = false →
      NameScopeRun pfx reset body st =
        ((body (nameScopeEnter pfx reset st)).1, some .namescopeCorruption)) ∧
    (∀ (scope : Option DeviceOption) (nn : Option String) (body : Body) (st : ScopeState)
        (ns : DeviceOption),
      deviceScopeNewScope scope nn st.devicescope = .ok ns →
      (body { st with devicescope := some ns }).1.devicescope ≠ some ns →
      DeviceScopeRun scope nn body st =
        ((body { st with devicescope := some ns }).1, some .devicescopeCorruption)) := by
  constructor
  · intro pfx reset body st h
    rw [nameScopeRun_eq, if_neg (by simp [h])]
  · intro scope nn body st ns hns hd
    rw [deviceScopeRun_eq_ok scope nn body st ns hns, if_neg hd]

/-- Witness for C9: a block overwrites the slot from outside a nested
guard; the guard reports corruption and the final state keeps the
corrupted value, not the pre-entry one. -/
theorem corruption_assert_witness :
    NameScopeRun (some "a") false (fun s => ({ s with namescope := "oops" }, none))
        initialState
      = ({ namescope := "oops", devicescope := none, tags := none },
         some .namescopeCorruption) ∧
    DeviceScopeRun (some { device_type := 1 }) none
        (fun s => ({ s with devicescope := none }, none)) initialState
      = ({ namescope := "", devicescope := none, tags := none },
         some .devicescopeCorruption) :=
  ⟨corruption_assert_raises_without_restore.1 (some "a") false
     (fun s => ({ s with namescope := "oops" }, none)) initialState rfl,
   corruption_assert_raises_without_restore.2 (some { device_type := 1 }) none
     (fun s => ({ s with devicescope := none }, none)) initialState { device_type := 1 }
     rfl (by simp)⟩

/-- Claim C10 (implicit): the Device Scope entry writes only to the freshly
allocated copy, never to the caller's descriptor object: entry leaves the
argument object's value unchanged, the installed value is exactly the one
`deviceScopeNewScope` computes, and when a node name is supplied or the
enclosing node identifier is inherited, the identifier appears on the
installed copy while the argument still lacks it. -/
theorem deviceScope_copies_argument_never_mutates :
    (∀ (argObj : Option DeviceOption) (nn : Option String) (old : Option DeviceOption)
        (r : DevEntryObjects),
      deviceScopeEnterObjects argObj nn old = .ok r → r.argObj = argObj) ∧
    (∀ (argObj : Option DeviceOption) (nn : Option String) (old : Option DeviceOption)
        (r : DevEntryObjects),
      deviceScopeEnterObjects argObj nn old = .ok r →
      deviceScopeNewScope argObj nn old = .ok r.newObj) ∧
    (∀ (sc : DeviceOption) (m : String) (old : Option DeviceOption) (r : DevEntryObjects),
      m ≠ "" → sc.node_name = none →
      deviceScopeEnterObjects (some sc) (some m) old = .ok r →
      r.newObj.node_name = some m ∧ r.argObj = some sc) ∧
    (∀ (sc o : DeviceOption) (n : String) (r : DevEntryObjects),
      sc.node_name = none → o.node_name = some n →
      deviceScopeEnterObjects (some sc) none (some o) = .ok r →
      r.newObj.node_name = some n ∧ r.argObj = some sc) := by
  have hok : ∀ (argObj : Option DeviceOption) (nn : Option String) (old : Option DeviceOption)
      (r : DevEntryObjects), deviceScopeEnterObjects argObj nn old = .ok r →
      r = ⟨argObj, (match argObj with
        | some sc => applyInherit (applyNodeName sc nn) old
        | none => applyInherit (applyNodeName {} nn) old)⟩ := by
    intro argObj nn old r h
    cases argObj with
    | some sc =>
        exact (Except.ok.inj h).symm
    | none =>
        by_cases ht : strTruthy nn = true
        · simp only [deviceScopeEnterObjects, ht, if_true] at h
          exact (Except.ok.inj h).symm
        · simp only [deviceScopeEnterObjects] at h
          rw [if_neg ht] at h
          exact Except.noConfusion h
  refine ⟨?_, ?_, ?_, ?_⟩
  · intro argObj nn old r h
    rw [hok argObj nn old r h]
  · intro argObj nn old r h
    rw [hok argObj nn old r h]
    cases argObj with
    | some sc => rfl
    | none =>
        by_cases ht : strTruthy nn = true
        · simp [deviceScopeNewScope, ht]
        · exfalso
          simp only [deviceScopeEnterObjects] at h
          rw [if_neg ht] at h
          exact Except.noConfusion h
  · intro sc m old r hm hsc h
    rw [hok (some sc) (some m) old r h]
    have ht : strTruthy (some m) = true := by simp [strTruthy, hm]
    refine ⟨?_, rfl⟩
    show (applyInherit (applyNodeName sc (some m)) old).node_name = some m
    cases old <;> simp [applyNodeName, applyInherit, ht]
  · intro sc o n r hsc hn h
    rw [hok (some sc) none (some o) r h]
    refine ⟨?_, rfl⟩
    show (applyInherit (applyNodeName sc none) (some o)).node_name = some n
    simp [applyNodeName, applyInherit, strTruthy, hsc, hn]

/-- Witness for C10: a supplied node name lands on the installed copy while
the caller's descriptor is returned unchanged; likewise for an inherited
node identifier. -/
theorem deviceScope_copies_argument_witness :
    (∃ r, deviceScopeEnterObjects (some { device_type := 2 }) (some "M") none = .ok r ∧
      r.argObj = some { device_type := 2 } ∧ r.newObj.node_name = some "M") ∧
    (∃ r, deviceScopeEnterObjects (some { device_type := 2 }) none
        (some { node_name := some "N" }) = .ok r ∧
      r.argObj = some { device_type := 2 } ∧ r.newObj.node_name = some "N") :=
  ⟨⟨_, rfl,
    deviceScope_copies_argument_never_mutates.1 (some { device_type := 2 }) (some "M")
      none _ rfl,
    (deviceScope_copies_argument_never_mutates.2.2.1 { device_type := 2 } "M" none _
      (by decide) rfl rfl).1⟩,
   ⟨_, rfl,
    deviceScope_copies_argument_never_mutates.1 (some { device_type := 2 }) none
      (some { node_name := some "N" }) _ rfl,
    (deviceScope_copies_argument_never_mutates.2.2.2 { device_type := 2 }
      { node_name := some "N" } "N" _ rfl rfl rfl).1⟩⟩

end Caffe2Scope
